import Mathlib

namespace SicaKitchen

/-!
Verification of the sica-kitchen recipe-chatbot core against its
natural-language specification.

The pipeline (src/backend/orchestrator.py, src/backend/agents.py) is
shallowly embedded here.  External collaborators (the OpenAI chat
completion, Spoonacular recipe lookup and the Kroger grocery API) are
modelled as oracle parameters returning `Except Failure` values; Python
exceptions become `Except.error`, Python floats become `ℚ`, Python dicts
keyed by strings become insertion-ordered association lists.
-/

/-! ## String helpers mirroring Python semantics -/

/-- Python `needle` prefix test on character lists: `startsWithL hay needle`
is `true` iff `needle` is a prefix of `hay`. -/
def startsWithL : List Char → List Char → Bool
  | _, [] => true
  | [], _ :: _ => false
  | c :: cs, d :: ds => c == d && startsWithL cs ds

/-- Python substring containment `needle in hay` on character lists:
`true` iff `needle` occurs contiguously inside `hay` (the empty needle
occurs in everything, as in Python). -/
def occursIn (needle : List Char) : List Char → Bool
  | [] => needle.isEmpty
  | c :: cs => startsWithL (c :: cs) needle || occursIn needle cs

/-- Python `needle in hay` for strings. -/
def strContainsSub (hay needle : String) : Bool :=
  occursIn needle.data hay.data

/-- Python `s.lower()`: lowercase character by character. -/
def strLower (s : String) : String := String.mk (s.data.map Char.toLower)

/-- Python `s.strip()`: drop leading and trailing whitespace. -/
def pyStrip (s : String) : String :=
  String.mk (((s.data.dropWhile Char.isWhitespace).reverse.dropWhile Char.isWhitespace).reverse)

/-! ## Data model (src/backend/utils/spoonacular/interfaces.py) -/

/-- An ingredient record from the recipe source.  Only the fields the
core pipeline reads are carried (`name` is the only one inspected). -/
structure Ingredient where
  id : Nat
  name : String
  amount : ℚ
  unitName : String
deriving DecidableEq, Repr

/-- A candidate recipe from the `findByIngredients` endpoint. -/
structure Recipe where
  id : Nat
  title : String
  usedIngredients : List Ingredient
  missedIngredients : List Ingredient
  unusedIngredients : List Ingredient
deriving DecidableEq, Repr

/-! ## RecipeFinder scoring (src/backend/agents.py, `_score_recipe`) -/

/-- Embedding of `RecipeFinder._score_recipe`: weighted score of a candidate recipe
against the user's ingredient list.  Python float arithmetic is modelled
over `ℚ`. -/
def score_recipe (recipe : Recipe) (main_ingredients : List String) : ℚ :=
  let main_ingredients_lower := main_ingredients.map strLower
  let used_ingredients := recipe.usedIngredients.map (fun i => strLower i.name)
  let missed_ingredients := recipe.missedIngredients.map (fun i => strLower i.name)
  let main_ingredient_usage : ℚ :=
    ((used_ingredients.filter
      (fun ing => main_ingredients_lower.any (fun m => strContainsSub ing m))).length : ℚ)
  let total_ingredients : Nat := used_ingredients.length + missed_ingredients.length
  let used_ratio : ℚ :=
    if total_ingredients > 0 then
      (used_ingredients.length : ℚ) / (total_ingredients : ℚ)
    else 0
  let title_relevance : Bool :=
    main_ingredients_lower.any (fun m => strContainsSub (strLower recipe.title) m)
  (4 / 10 : ℚ) * main_ingredient_usage / (main_ingredients.length : ℚ)
    + (3 / 10) * used_ratio
    + (3 / 10) * (if title_relevance then (1 : ℚ) else 0)

/-- Spec-side `usageScore`: count of the recipe's used-ingredients whose
lowercased name contains some lowercased ingredient of `I` as a
substring, divided by `|I|`. -/
def usageScoreSpec (r : Recipe) (I : List String) : ℚ :=
  (((r.usedIngredients.map (fun i => strLower i.name)).filter
    (fun ing => (I.map strLower).any (fun m => strContainsSub ing m))).length : ℚ)
    / (I.length : ℚ)

/-- Spec-side `coverageRatio`: `|usedIngredients| / (|usedIngredients| +
|missedIngredients|)`, or `0` when both lists are empty. -/
def coverageRatioSpec (r : Recipe) : ℚ :=
  if r.usedIngredients.length + r.missedIngredients.length = 0 then 0
  else (r.usedIngredients.length : ℚ)
    / ((r.usedIngredients.length + r.missedIngredients.length : Nat) : ℚ)

/-- Spec-side `titleBonus`: `1` if some lowercased ingredient of `I` is a
substring of the recipe's lowercased title, else `0`. -/
def titleBonusSpec (r : Recipe) (I : List String) : ℚ :=
  if (I.map strLower).any (fun m => strContainsSub (strLower r.title) m) then 1 else 0

/-! ## Failure taxonomy (Python exceptions raised by the pipeline) -/

/-- Failures raised on the ingredient path.  `noRecipesFound` is the
`ValueError` raised by `RecipeFinder.find_recipe` on an empty candidate
batch; `emptyResponse` is the `ValueError` raised when an OpenAI call
returns `None` content; `keyError` is a Python `KeyError` on a dict
access; `network` stands for any exception thrown by an external call. -/
inductive Failure where
  | noRecipesFound
  | emptyResponse
  | keyError (key : String)
  | network (detail : String)
deriving DecidableEq, Repr

/-! ## RecipeFinder.find_recipe (src/backend/agents.py) -/

/-- Python's `list.sort(key=lambda x: x[1], reverse=True)`: a stable
descending sort on the score component, modelled by insertion sort with
the relation "score of the left is at least the score of the right"
(so an element is inserted before the first earlier-sorted element whose
score does not exceed its own, which preserves the original order of
equal-score elements exactly as Python's stable sort does). -/
def sortDescByScore (l : List (Recipe × ℚ)) : List (Recipe × ℚ) :=
  List.insertionSort (fun x y => y.2 ≤ x.2) l

/-- Embedding of `RecipeFinder.find_recipe`, with the external Spoonacular batch
(`get_recipe(ingredients, number=5, ranking=1)`) passed in as an
`Except` value: an empty batch raises, otherwise candidates are scored,
stably sorted descending, and the head is returned. -/
def find_recipe (batch : Except Failure (List Recipe)) (ingredients : List String) :
    Except Failure Recipe :=
  match batch with
  | .error e => .error e
  | .ok recipes =>
    if recipes.isEmpty then .error .noRecipesFound
    else
      match sortDescByScore (recipes.map (fun r => (r, score_recipe r ingredients))) with
      | [] => .error .noRecipesFound  -- unreachable: sorting preserves nonemptiness
      | (r, _) :: _ => .ok r

/-- The first candidate, in the source's original ordering, whose score
is maximal among the batch. -/
def firstBestRecipe (recipes : List Recipe) (ingredients : List String) : Option Recipe :=
  recipes.find?
    (fun r => decide (∀ r' ∈ recipes, score_recipe r' ingredients ≤ score_recipe r ingredients))

/-! ## Kroger product-search responses (src/backend/utils/kroger/interfaces.py)

The nested dicts are modelled with `Option` for the keys the code reads
with `.get` (which may be absent at runtime). -/

/-- The `price` dict of an item; the `"regular"` key may be absent. -/
structure ItemPrice where
  regular : Option ℚ
deriving DecidableEq, Repr

/-- A product item; the `"price"` key may be absent. -/
structure Item where
  itemId : String
  price : Option ItemPrice
deriving DecidableEq, Repr

/-- A product returned by the Kroger search. -/
structure Product where
  productId : String
  items : List Item
deriving DecidableEq, Repr

/-- A Kroger product-search response. -/
structure KrogerProductSearchResponse where
  data : List Product
deriving DecidableEq, Repr

/-! ## CostCalculator (src/backend/agents.py, `calculate_total_cost`)

`ingredient_costs` is a Python dict keyed by ingredient name; it is
modelled as an insertion-ordered association list where assigning to an
existing key overwrites in place (Python dict semantics). -/

/-- Python `d[k] = v` on an insertion-ordered string-keyed dict. -/
def dictInsert (d : List (String × ℚ)) (k : String) (v : ℚ) : List (String × ℚ) :=
  if d.any (fun p => p.1 == k) then d.map (fun p => if p.1 == k then (k, v) else p)
  else d ++ [(k, v)]

/-- One iteration of the `calculate_total_cost` loop. -/
def costStep (acc : ℚ × List (String × ℚ)) (pair : String × KrogerProductSearchResponse) :
    ℚ × List (String × ℚ) :=
  match pair.2.data with
  | [] => acc
  | product :: _ =>
    match product.items with
    | [] => acc
    | item :: _ =>
      let price : ℚ := match item.price with
        | none => 0
        | some p => p.regular.getD 0
      (acc.1 + price, dictInsert acc.2 pair.1 price)

/-- Embedding of `CostCalculator.calculate_total_cost`: fold the quote list into a
running total and a per-ingredient cost dict. -/
def calculate_total_cost (price_data : List (String × KrogerProductSearchResponse)) :
    ℚ × List (String × ℚ) :=
  price_data.foldl costStep (0, [])

/-- A quote is priced when it has at least one product and that first
product has at least one item. -/
def quoteHasItem (resp : KrogerProductSearchResponse) : Bool :=
  match resp.data with
  | [] => false
  | product :: _ => !product.items.isEmpty

/-- The first product's first item's `"regular"` price, `0` when the
`price` dict or its `"regular"` key is absent, `0` for unpriced quotes. -/
def firstItemPrice (resp : KrogerProductSearchResponse) : ℚ :=
  match resp.data with
  | [] => 0
  | product :: _ =>
    match product.items with
    | [] => 0
    | item :: _ =>
      match item.price with
      | none => 0
      | some p => p.regular.getD 0

/-- A response carrying a single product with a single item priced `q`. -/
def priceResp (q : ℚ) : KrogerProductSearchResponse :=
  { data := [{ productId := "p1", items := [{ itemId := "i1", price := some { regular := some q } }] }] }

/-- A response with no products (`data = []`). -/
def emptyResp : KrogerProductSearchResponse := { data := [] }

/-- A quote sequence repeating the same ingredient name with two
different prices. -/
def dupNameQuotes : List (String × KrogerProductSearchResponse) :=
  [("butter", priceResp 1), ("butter", priceResp 2)]

/-- A quote sequence in which the first occurrence of a name has an
empty `data` list and a later occurrence of the same name is priced. -/
def dupEmptyFirstQuotes : List (String × KrogerProductSearchResponse) :=
  [("sugar", emptyResp), ("sugar", priceResp 5)]

/-! ## RecipeAdjuster (src/backend/agents.py, `get_missing_ingredients`) -/

/-- Embedding of `RecipeAdjuster.get_missing_ingredients`: re-filter the recipe's
source-reported `missedIngredients`, keeping an ingredient only when its
lowercased name is not in the lowercased available list. -/
def get_missing_ingredients (recipe : Recipe) (available_ingredients : List String) :
    List Ingredient :=
  let available_ingredients_lower := available_ingredients.map strLower
  recipe.missedIngredients.filter
    (fun ing => !(available_ingredients_lower.contains (strLower ing.name)))

/-! ## IngredientExtractor (src/backend/agents.py, `extract_ingredients`)

The OpenAI chat completion is passed in as an oracle result: an
`Except.error` models the call raising, `Except.ok none` models a
successful call whose message content is `None`, and `Except.ok (some c)`
models content `c`. -/

/-- Python `content.split(",")` on character lists: always returns at
least one (possibly empty) piece, `"".split(",") == [""]`. -/
def splitOnCommaChars : List Char → List (List Char)
  | [] => [[]]
  | c :: cs =>
    let rest := splitOnCommaChars cs
    if c = ',' then [] :: rest
    else
      match rest with
      | [] => [[c]]
      | piece :: more => (c :: piece) :: more

/-- Embedding of `IngredientExtractor.extract_ingredients`: `None` content raises a
`ValueError` ("Received empty response from OpenAI"); otherwise the
content is split on commas and each piece is stripped (Python `strip`
modelled by `String.trim`). -/
def extract_ingredients (call_result : Except Failure (Option String)) :
    Except Failure (List String) :=
  match call_result with
  | .error e => .error e
  | .ok none => .error .emptyResponse
  | .ok (some content) =>
    .ok ((splitOnCommaChars content.data).map (fun piece => pyStrip (String.mk piece)))

/-! ## Totality of the scoring function (claim C10)

Python's `/` raises `ZeroDivisionError` on a zero divisor; `pyDiv`
models this with `none`.  `score_recipe_py` is `_score_recipe` with
every division made explicitly partial, mirroring which divisions the
source guards. -/

/-- Python float division: `none` models `ZeroDivisionError`. -/
def pyDiv (a b : ℚ) : Option ℚ := if b = 0 then none else some (a / b)

/-- Variant of `_score_recipe` with Python division semantics: the division by
`total_ingredients` sits under the source's explicit `> 0` guard, while
the division by `len(main_ingredients)` is unguarded. -/
def score_recipe_py (recipe : Recipe) (main_ingredients : List String) : Option ℚ :=
  let main_ingredients_lower := main_ingredients.map strLower
  let used_ingredients := recipe.usedIngredients.map (fun i => strLower i.name)
  let missed_ingredients := recipe.missedIngredients.map (fun i => strLower i.name)
  let main_ingredient_usage : ℚ :=
    ((used_ingredients.filter
      (fun ing => main_ingredients_lower.any (fun m => strContainsSub ing m))).length : ℚ)
  let total_ingredients : Nat := used_ingredients.length + missed_ingredients.length
  let used_ratio_opt : Option ℚ :=
    if total_ingredients > 0 then pyDiv (used_ingredients.length : ℚ) (total_ingredients : ℚ)
    else some 0
  let title_relevance : Bool :=
    main_ingredients_lower.any (fun m => strContainsSub (strLower recipe.title) m)
  match used_ratio_opt with
  | none => none
  | some used_ratio =>
    match pyDiv ((4 / 10 : ℚ) * main_ingredient_usage) (main_ingredients.length : ℚ) with
    | none => none
    | some first_term =>
      some (first_term + (3 / 10) * used_ratio
        + (3 / 10) * (if title_relevance then (1 : ℚ) else 0))

/-- A concrete recipe shared by witnesses below. -/
def chickenRecipe : Recipe :=
  { id := 42, title := "Creamy Chicken Skillet",
    usedIngredients := [{ id := 10, name := "chicken breast", amount := 1, unitName := "lb" }],
    missedIngredients := [{ id := 11, name := "heavy cream", amount := 1, unitName := "cup" }],
    unusedIngredients := [] }

/-! ## PriceFetcher (src/backend/agents.py) and the Kroger calls
(src/backend/utils/kroger.py)

`get_prices` performs one `authenticate_kroger()` call and then one
product search per ingredient; the sequence of external calls it issues
is modelled explicitly so that authentication counts can be stated. -/

/-- Python `name.split(sep)[0]`: the prefix before the first occurrence
of `sep`. -/
def takeBefore (sep : Char) : List Char → List Char
  | [] => []
  | c :: cs => if c = sep then [] else c :: takeBefore sep cs

/-- Python `s.replace(target, "")`: remove every non-overlapping
occurrence of `target`, scanning left to right (identity for an empty
`target`; Python is only called with non-empty targets here). -/
def replaceAll (target : List Char) : List Char → List Char
  | [] => []
  | c :: cs =>
    if h : target ≠ [] ∧ startsWithL (c :: cs) target = true then
      replaceAll target (List.drop target.length (c :: cs))
    else c :: replaceAll target cs
termination_by l => l.length
decreasing_by
  · have ht : 0 < target.length := List.length_pos.mpr h.1
    rw [List.length_drop]
    simp only [List.length_cons]
    omega
  · simp only [List.length_cons]
    omega

/-- Python `s.split()` (no argument): whitespace-run splitting with no
empty pieces; the accumulator carries the current word reversed. -/
def wordsAux : List Char → List Char → List (List Char)
  | acc, [] => if acc.isEmpty then [] else [acc.reverse]
  | acc, c :: cs =>
    if c.isWhitespace then
      if acc.isEmpty then wordsAux [] cs else acc.reverse :: wordsAux [] cs
    else wordsAux (c :: acc) cs

/-- Python `" ".join(pieces)`. -/
def joinSpace : List (List Char) → List Char
  | [] => []
  | [w] => w
  | w :: ws => w ++ ' ' :: joinSpace ws

/-- Embedding of `PriceFetcher._clean_ingredient_name`: truncate at the first `*`,
`(` or `,`, remove the filler words, collapse internal whitespace and
strip. -/
def clean_ingredient_name (name : String) : String :=
  let n1 := takeBefore ',' (takeBefore '(' (takeBefore '*' name.data))
  let n2 := (["slabs of", "pieces of", "of", "fresh", "whole"].map String.data).foldl
    (fun acc w => replaceAll w acc) n1
  pyStrip (String.mk (joinSpace (wordsAux [] n2)))

/-- An external call issued by `PriceFetcher.get_prices`. -/
inductive ExternalCall where
  | krogerAuth
  | krogerProductSearch (term : String)
deriving DecidableEq, Repr

/-- The sequence of external calls issued by one
`PriceFetcher.get_prices(ingredients)` call: one unconditional
`authenticate_kroger()` followed by one product search per ingredient
(on the cleaned name). -/
def get_prices_calls (ingredients : List Ingredient) : List ExternalCall :=
  ExternalCall.krogerAuth ::
    ingredients.map (fun i => ExternalCall.krogerProductSearch (clean_ingredient_name i.name))

/-- A concrete ingredient for the failing input of claim C5. -/
def milkIngredient : Ingredient := { id := 1, name := "milk", amount := 1, unitName := "gal" }

/-! ## RecipeSummarizer (src/backend/agents.py)

`RecipeFormatter.format_recipe` is an opaque generative call returning a
loosely-typed dict; only its `"title"` key is read by the fallback, so
the formatted recipe is modelled as that possibly-absent key.  The
persona summary completion is a second opaque call whose content may be
`None` (which raises inside the `try` and is caught) or which may raise
itself (also caught). -/

/-- The dict returned by `RecipeFormatter.format_recipe`; `title` is its
(possibly absent) `"title"` key. -/
structure FormattedRecipe where
  title : Option String
deriving DecidableEq, Repr

/-- Embedding of `RecipeSummarizer._create_basic_summary`: the templated fallback.
Accessing a missing `"title"` key would raise a Python `KeyError`. -/
def create_basic_summary (formatted_recipe : FormattedRecipe) : Except Failure String :=
  match formatted_recipe.title with
  | none => .error (.keyError "title")
  | some t => .ok ("**" ++ t ++ " Recipe Summary**\n\n")

/-- Embedding of `RecipeSummarizer.summarize`: format the recipe (outside the `try`,
so a formatter failure propagates), then attempt the persona summary;
on a raised generative call or `None` content, fall back to
`_create_basic_summary`. -/
def summarize (formatRecipe : Recipe → Except Failure FormattedRecipe)
    (generate : FormattedRecipe → List Ingredient → ℚ → List (String × ℚ) →
      Except Failure (Option String))
    (recipe : Recipe) (missing_ingredients : List Ingredient)
    (total_cost : ℚ) (ingredient_costs : List (String × ℚ)) : Except Failure String :=
  match formatRecipe recipe with
  | .error e => .error e
  | .ok formatted_recipe =>
    match generate formatted_recipe missing_ingredients total_cost ingredient_costs with
    | .ok (some content) => .ok content
    | .ok none => create_basic_summary formatted_recipe
    | .error _ => create_basic_summary formatted_recipe

/-- A concrete recipe for the C6 witness. -/
def pastaRecipe : Recipe :=
  { id := 9, title := "Test Pasta", usedIngredients := [], missedIngredients := [],
    unusedIngredients := [] }

/-! ## IntentionDetector and the orchestrator
(src/backend/agents.py, src/backend/orchestrator.py)

`RecipeChatbot.process_message` is embedded with every external
collaborator supplied through an `Env` of oracles.  A Python exception
raised by a stage is an `Except.error` that short-circuits the rest of
the turn; `conversation_state` mutations that happened before the
failure are kept, as in the source. -/

/-- Python `s.strip(chars)`: drop leading and trailing characters drawn
from `chars`. -/
def stripCharsSet (chars : List Char) (s : String) : String :=
  String.mk (((s.data.dropWhile (fun c => chars.contains c)).reverse.dropWhile
    (fun c => chars.contains c)).reverse)

/-- Embedding of `IntentionDetector.detect_intention`: `None` content raises;
otherwise the content is lowercased, stripped, and stripped of
surrounding single/double quotes (`strip("'\"")`). -/
def detect_intention (call_result : Except Failure (Option String)) : Except Failure String :=
  match call_result with
  | .error e => .error e
  | .ok none => .error .emptyResponse
  | .ok (some content) =>
    .ok (stripCharsSet [Char.ofNat 39, Char.ofNat 34] (pyStrip (strLower content)))

/-- The external collaborators consumed by one turn: the four OpenAI
completions (intent, extraction, recipe formatting, persona summary and
general conversation), the Spoonacular candidate lookup, and the Kroger
authentication and product search.  Each is an oracle whose `error`
models the underlying call raising. -/
structure Env where
  intent_call : String → Except Failure (Option String)
  extractor_call : String → Except Failure (Option String)
  recipe_source : List String → Except Failure (List Recipe)
  kroger_auth : Except Failure Unit
  kroger_search : String → Except Failure KrogerProductSearchResponse
  format_recipe : Recipe → Except Failure FormattedRecipe
  summary_generate : FormattedRecipe → List Ingredient → ℚ → List (String × ℚ) →
    Except Failure (Option String)
  general_call : String → Except Failure (Option String)

/-- Embedding of `PriceFetcher.get_prices`: authenticate once, then sequentially
search each ingredient's cleaned name, pairing the original name with
the response; the first raised call aborts the whole fetch. -/
def get_prices_run (env : Env) (ingredients : List Ingredient) :
    Except Failure (List (String × KrogerProductSearchResponse)) :=
  match env.kroger_auth with
  | .error e => .error e
  | .ok _ =>
    ingredients.mapM
      (fun i => (env.kroger_search (clean_ingredient_name i.name)).map
        (fun resp => (i.name, resp)))

/-- Embedding of `RecipeChatbot.conversation_state`: the keys written on the
ingredient path. -/
structure ConversationState where
  available_ingredients : Option (List String)
  recipe : Option Recipe
  missing_ingredients : Option (List Ingredient)
deriving DecidableEq, Repr

/-- The `data` payload of a `ChatbotResponse`: empty for the
general-conversation path, the recipe/cost payload for the ingredient
path. -/
inductive ResponseData where
  | empty
  | recipeData (recipe : Recipe) (missing_ingredients : List Ingredient)
      (total_cost : ℚ) (ingredient_costs : List (String × ℚ))
deriving DecidableEq, Repr

/-- The orchestrator's response envelope. -/
structure ChatbotResponse where
  message : String
  data : ResponseData
deriving DecidableEq, Repr

/-- A session's initial conversation state. -/
def emptyState : ConversationState :=
  { available_ingredients := none, recipe := none, missing_ingredients := none }

/-- Embedding of `RecipeChatbot.process_message`: detect intent, then either run the
strictly sequential ingredient path (extract → find recipe → resolve
missing → fetch prices → aggregate costs → summarize) or the
general-conversation path.  Returns the conversation state as mutated so
far together with either the turn's response or the propagated
failure. -/
def process_message (env : Env) (st : ConversationState) (user_input : String) :
    ConversationState × Except Failure ChatbotResponse :=
  match detect_intention (env.intent_call user_input) with
  | .error e => (st, .error e)
  | .ok intention =>
    if intention = "ingredients" ∨ intention = "recipe_search" then
      match extract_ingredients (env.extractor_call user_input) with
      | .error e => (st, .error e)
      | .ok ingredients =>
        let st1 := { st with available_ingredients := some ingredients }
        match find_recipe (env.recipe_source ingredients) ingredients with
        | .error e => (st1, .error e)
        | .ok recipe =>
          let st2 := { st1 with recipe := some recipe }
          let missing_ingredients := get_missing_ingredients recipe ingredients
          let st3 := { st2 with missing_ingredients := some missing_ingredients }
          match get_prices_run env missing_ingredients with
          | .error e => (st3, .error e)
          | .ok price_data =>
            let costs := calculate_total_cost price_data
            match summarize env.format_recipe env.summary_generate recipe
                missing_ingredients costs.1 costs.2 with
            | .error e => (st3, .error e)
            | .ok summary =>
              (st3, .ok ⟨summary, .recipeData recipe missing_ingredients costs.1 costs.2⟩)
    else
      match env.general_call user_input with
      | .error e => (st, .error e)
      | .ok none => (st, .error .emptyResponse)
      | .ok (some response) => (st, .ok { message := response, data := .empty })

/-- An environment whose ingredient extraction raises. -/
def envFailingExtract : Env :=
  { intent_call := fun _ => Except.ok (some "ingredients"),
    extractor_call := fun _ => Except.error (Failure.network "connection reset"),
    recipe_source := fun _ => Except.ok [],
    kroger_auth := Except.ok (),
    kroger_search := fun _ => Except.ok emptyResp,
    format_recipe := fun _ => Except.ok { title := none },
    summary_generate := fun _ _ _ _ => Except.ok none,
    general_call := fun _ => Except.ok none }

/-! ## Theorems -/

/-- Claim C1: for every candidate recipe and non-empty ingredient list,
`_score_recipe` computes `0.4·usageScore + 0.3·coverageRatio +
0.3·titleBonus` with the spec's lowercasing and substring semantics. -/
theorem score_recipe_eq_weighted_spec (r : Recipe) (I : List String) (hI : I ≠ []) :
    score_recipe r I =
      (4 / 10 : ℚ) * usageScoreSpec r I
        + (3 / 10) * coverageRatioSpec r
        + (3 / 10) * titleBonusSpec r I := by
  unfold score_recipe usageScoreSpec coverageRatioSpec titleBonusSpec
  simp only [List.length_map]
  rcases Nat.eq_zero_or_pos (r.usedIngredients.length + r.missedIngredients.length) with h | h
  · simp [h, mul_div_assoc]
  · simp only [h, Nat.pos_iff_ne_zero.mp h, if_true, if_false, gt_iff_lt]
    rw [mul_div_assoc]

/-- Witness for C1 at a concrete recipe and ingredient list. -/
theorem score_recipe_eq_weighted_spec_witness :
    score_recipe
        { id := 1, title := "Garlic Chicken",
          usedIngredients := [{ id := 2, name := "chicken breast", amount := 1, unitName := "lb" }],
          missedIngredients := [{ id := 3, name := "garlic", amount := 2, unitName := "cloves" }],
          unusedIngredients := [] }
        ["chicken"] =
      (4 / 10 : ℚ) * usageScoreSpec
          { id := 1, title := "Garlic Chicken",
            usedIngredients := [{ id := 2, name := "chicken breast", amount := 1, unitName := "lb" }],
            missedIngredients := [{ id := 3, name := "garlic", amount := 2, unitName := "cloves" }],
            unusedIngredients := [] }
          ["chicken"]
        + (3 / 10) * coverageRatioSpec
          { id := 1, title := "Garlic Chicken",
            usedIngredients := [{ id := 2, name := "chicken breast", amount := 1, unitName := "lb" }],
            missedIngredients := [{ id := 3, name := "garlic", amount := 2, unitName := "cloves" }],
            unusedIngredients := [] }
        + (3 / 10) * titleBonusSpec
          { id := 1, title := "Garlic Chicken",
            usedIngredients := [{ id := 2, name := "chicken breast", amount := 1, unitName := "lb" }],
            missedIngredients := [{ id := 3, name := "garlic", amount := 2, unitName := "cloves" }],
            unusedIngredients := [] }
          ["chicken"] :=
  score_recipe_eq_weighted_spec _ _ (List.cons_ne_nil _ _)

/-- The function `find?` only inspects the predicate on members of the list. -/
theorem find?_congrOn {α : Type} (p q : α → Bool) :
    ∀ l : List α, (∀ x ∈ l, p x = q x) → l.find? p = l.find? q := by
  intro l
  induction l with
  | nil => intro _; rfl
  | cons a l ih =>
    intro h
    have ha := h a (List.mem_cons_self a l)
    cases hqa : q a with
    | true => simp [List.find?, ha, hqa]
    | false =>
      simp only [List.find?, ha, hqa]
      exact ih (fun x hx => h x (List.mem_cons_of_mem _ hx))

/-- The function `find?` commutes with `map`. -/
theorem find?_map_eq {α β : Type} (g : α → β) (p : β → Bool) :
    ∀ l : List α, (l.map g).find? p = Option.map g (l.find? (fun x => p (g x))) := by
  intro l
  induction l with
  | nil => rfl
  | cons a l ih =>
    cases hpa : p (g a) with
    | true => simp [List.find?, hpa]
    | false => simp [List.find?, hpa, ih]

/-- Unfolding equation for `sortDescByScore` on a cons cell. -/
theorem sortDescByScore_cons (a : Recipe × ℚ) (l : List (Recipe × ℚ)) :
    sortDescByScore (a :: l) =
      List.orderedInsert (fun x y : Recipe × ℚ => y.2 ≤ x.2) a (sortDescByScore l) := rfl

/-- The head of the stable descending sort is the first element of the
original list attaining the maximal score. -/
theorem sortDescByScore_head :
    ∀ l : List (Recipe × ℚ), l ≠ [] →
      ∃ a t, sortDescByScore l = a :: t ∧
        l.find? (fun x => decide (∀ y ∈ l, y.2 ≤ x.2)) = some a := by
  intro l
  induction l with
  | nil => intro h; exact absurd rfl h
  | cons a l ih =>
    intro _
    rcases eq_or_ne l [] with hl | hl
    · subst hl
      refine ⟨a, [], by simp [sortDescByScore, List.insertionSort, List.orderedInsert], ?_⟩
      have hp : (decide (∀ y ∈ [a], y.2 ≤ a.2)) = true := by simp
      simp [List.find?, hp]
    · obtain ⟨m, t, hsort, hfind⟩ := ih hl
      have hmem : m ∈ l := List.mem_of_find?_eq_some hfind
      have hmax : ∀ y ∈ l, y.2 ≤ m.2 := by
        have h1 := List.find?_some hfind
        simpa using h1
      rcases le_or_lt m.2 a.2 with hle | hlt
      · refine ⟨a, m :: t, ?_, ?_⟩
        · rw [sortDescByScore_cons, hsort, List.orderedInsert, if_pos hle]
        · have hp : (decide (∀ y ∈ a :: l, y.2 ≤ a.2)) = true := by
            apply decide_eq_true
            intro y hy
            rcases List.mem_cons.mp hy with h | h
            · rw [h]
            · exact le_trans (hmax y h) hle
          simp [List.find?, hp]
      · refine ⟨m, List.orderedInsert (fun x y : Recipe × ℚ => y.2 ≤ x.2) a t, ?_, ?_⟩
        · rw [sortDescByScore_cons, hsort, List.orderedInsert, if_neg (not_le.mpr hlt)]
        · have hpa : (decide (∀ y ∈ a :: l, y.2 ≤ a.2)) = false := by
            apply decide_eq_false
            intro hall
            exact absurd (hall m (List.mem_cons_of_mem _ hmem)) (not_le.mpr hlt)
          have step : List.find? (fun x => decide (∀ y ∈ a :: l, y.2 ≤ x.2)) (a :: l)
              = List.find? (fun x => decide (∀ y ∈ a :: l, y.2 ≤ x.2)) l := by
            simp [List.find?, hpa]
          rw [step]
          rw [find?_congrOn _ (fun x => decide (∀ y ∈ l, y.2 ≤ x.2)) l ?_]
          · exact hfind
          · intro x hx
            rw [decide_eq_decide]
            constructor
            · intro hall y hy
              exact hall y (List.mem_cons_of_mem _ hy)
            · intro hall y hy
              rcases List.mem_cons.mp hy with h | h
              · rw [h]
                exact le_of_lt (lt_of_lt_of_le hlt (hall m hmem))
              · exact hall y h

/-- Claim C2: on a non-empty candidate batch `find_recipe` returns the
highest-scoring candidate, ties broken by the source's original
ordering (the first candidate attaining the maximal score). -/
theorem find_recipe_first_best (recipes : List Recipe) (ingredients : List String)
    (h : recipes ≠ []) :
    ∃ r, find_recipe (Except.ok recipes) ingredients = Except.ok r ∧
      firstBestRecipe recipes ingredients = some r := by
  have hmap : recipes.map (fun r => (r, score_recipe r ingredients)) ≠ [] := by
    simpa using h
  obtain ⟨a, t, hsort, hfind⟩ := sortDescByScore_head _ hmap
  obtain ⟨rsel, ssel⟩ := a
  have hisEmpty : recipes.isEmpty = false := by
    cases recipes with
    | nil => exact absurd rfl h
    | cons _ _ => rfl
  refine ⟨rsel, ?_, ?_⟩
  · simp only [find_recipe, hisEmpty, Bool.false_eq_true, if_false]
    rw [hsort]
  · rw [find?_map_eq (fun r => (r, score_recipe r ingredients))
      (fun x => decide (∀ y ∈ recipes.map (fun r => (r, score_recipe r ingredients)), y.2 ≤ x.2))
      recipes] at hfind
    obtain ⟨r0, hr0, hga⟩ := Option.map_eq_some'.mp hfind
    have hpred : (fun r : Recipe =>
        decide (∀ y ∈ recipes.map (fun r => (r, score_recipe r ingredients)),
          y.2 ≤ ((r, score_recipe r ingredients) : Recipe × ℚ).2))
        = (fun r : Recipe =>
            decide (∀ r' ∈ recipes, score_recipe r' ingredients ≤ score_recipe r ingredients)) := by
      funext r
      rw [decide_eq_decide]
      constructor
      · intro hall r' hr'
        exact hall (r', score_recipe r' ingredients) (List.mem_map_of_mem _ hr')
      · intro hall y hy
        obtain ⟨x, hx, hgx⟩ := List.mem_map.mp hy
        rw [← hgx]
        exact hall x hx
    rw [hpred] at hr0
    have : r0 = rsel := congrArg Prod.fst hga
    rw [← this]
    exact hr0

/-- Witness for C2: two equal-scoring candidates; the earlier one in the
batch ordering is selected. -/
theorem find_recipe_first_best_witness :
    ∃ r, find_recipe (Except.ok
        [{ id := 1, title := "Chicken Soup",
           usedIngredients := [{ id := 10, name := "chicken", amount := 1, unitName := "lb" }],
           missedIngredients := [], unusedIngredients := [] },
         { id := 2, title := "Chicken Pie",
           usedIngredients := [{ id := 11, name := "chicken", amount := 1, unitName := "lb" }],
           missedIngredients := [], unusedIngredients := [] }]) ["chicken"] = Except.ok r ∧
      firstBestRecipe
        [{ id := 1, title := "Chicken Soup",
           usedIngredients := [{ id := 10, name := "chicken", amount := 1, unitName := "lb" }],
           missedIngredients := [], unusedIngredients := [] },
         { id := 2, title := "Chicken Pie",
           usedIngredients := [{ id := 11, name := "chicken", amount := 1, unitName := "lb" }],
           missedIngredients := [], unusedIngredients := [] }] ["chicken"] = some r :=
  find_recipe_first_best _ _ (List.cons_ne_nil _ _)

/-- Rewriting of `costStep` in terms of `quoteHasItem` and `firstItemPrice`. -/
theorem costStep_eq (acc : ℚ × List (String × ℚ)) (pair : String × KrogerProductSearchResponse) :
    costStep acc pair =
      if quoteHasItem pair.2 then
        (acc.1 + firstItemPrice pair.2, dictInsert acc.2 pair.1 (firstItemPrice pair.2))
      else acc := by
  rcases pair with ⟨n, resp⟩
  rcases resp with ⟨data⟩
  cases data with
  | nil => rfl
  | cons product rest =>
    cases hitems : product.items with
    | nil => simp [costStep, quoteHasItem, firstItemPrice, hitems]
    | cons item irest =>
      cases item.price with
      | none => simp_all [costStep, quoteHasItem, firstItemPrice]
      | some p => simp_all [costStep, quoteHasItem, firstItemPrice]

/-- Inserting a fresh key appends it. -/
theorem dictInsert_of_fresh (d : List (String × ℚ)) (k : String) (v : ℚ)
    (h : k ∉ d.map Prod.fst) : dictInsert d k v = d ++ [(k, v)] := by
  rw [dictInsert, if_neg]
  intro hany
  obtain ⟨p, hp, hpk⟩ := List.any_eq_true.mp hany
  exact h (List.mem_map.mpr ⟨p, hp, eq_of_beq hpk⟩)

/-- Characterization of the `calculate_total_cost` loop: starting from
an accumulator whose keys do not recur in the remaining quotes, and with
pairwise-distinct quote names, the loop appends exactly the priced
quotes to the dict and adds exactly their prices to the total. -/
theorem foldl_costStep_characterization :
    ∀ (qs : List (String × KrogerProductSearchResponse)) (acc : ℚ × List (String × ℚ)),
      (∀ k ∈ acc.2.map Prod.fst, k ∉ qs.map Prod.fst) →
      (qs.map Prod.fst).Pairwise (fun a b => a ≠ b) →
      qs.foldl costStep acc =
        (acc.1 + ((qs.filter (fun p => quoteHasItem p.2)).map (fun p => firstItemPrice p.2)).sum,
         acc.2 ++ (qs.filter (fun p => quoteHasItem p.2)).map (fun p => (p.1, firstItemPrice p.2))) := by
  intro qs
  induction qs with
  | nil => intro acc _ _; simp
  | cons q qs ih =>
    intro acc hfresh hdist
    have hdist' : (qs.map Prod.fst).Pairwise (fun a b => a ≠ b) :=
      (List.pairwise_cons.mp (by simpa using hdist)).2
    have hhead : ∀ b ∈ qs.map Prod.fst, q.1 ≠ b :=
      (List.pairwise_cons.mp (by simpa using hdist)).1
    rw [List.foldl_cons, costStep_eq]
    cases hq : quoteHasItem q.2 with
    | false =>
      simp only [Bool.false_eq_true, if_false]
      rw [ih acc ?_ hdist']
      · simp [List.filter_cons, hq]
      · intro k hk
        have := hfresh k hk
        intro hmem
        exact this (by simp [hmem])
    | true =>
      simp only [if_true]
      have hfreshq : q.1 ∉ acc.2.map Prod.fst := by
        intro hmem
        exact hfresh q.1 hmem (by simp)
      rw [dictInsert_of_fresh _ _ _ hfreshq]
      rw [ih (acc.1 + firstItemPrice q.2, acc.2 ++ [(q.1, firstItemPrice q.2)]) ?_ hdist']
      · simp [List.filter_cons, hq, add_assoc]
      · intro k hk
        simp only [List.map_append, List.mem_append, List.map_cons, List.map_nil,
          List.mem_singleton] at hk
        rcases hk with hk | hk
        · intro hmem
          exact hfresh k hk (by simp [hmem])
        · rw [hk]
          intro hmem
          exact hhead q.1 hmem rfl

/-- Counterexample to claim C3 as stated: on a quote sequence that
repeats an ingredient name, the dict entry is overwritten but the total
keeps both prices, so `totalCost ≠ sum(itemCosts.values())`
(`3 ≠ 2` here). -/
theorem total_ne_sum_on_duplicate_names :
    (calculate_total_cost dupNameQuotes).1 ≠
      ((calculate_total_cost dupNameQuotes).2.map Prod.snd).sum := by
  have h : calculate_total_cost dupNameQuotes = (3, [("butter", 2)]) := by
    simp only [dupNameQuotes, calculate_total_cost, List.foldl, costStep, priceResp, dictInsert]
    norm_num
  rw [h]
  norm_num

/-- Claim C3 (amended): for every quote sequence whose ingredient names
are pairwise distinct, the returned total equals the sum of the values
of the per-ingredient cost dict. -/
theorem total_eq_sum_itemCosts (qs : List (String × KrogerProductSearchResponse))
    (hdist : (qs.map Prod.fst).Pairwise (fun a b => a ≠ b)) :
    (calculate_total_cost qs).1 = ((calculate_total_cost qs).2.map Prod.snd).sum := by
  unfold calculate_total_cost
  rw [foldl_costStep_characterization qs (0, []) (by simp) hdist]
  simp only [List.nil_append, List.map_map, zero_add]
  rfl

/-- Witness for amended C3 at a concrete distinct-name quote sequence. -/
theorem total_eq_sum_itemCosts_witness :
    (calculate_total_cost [("milk", priceResp 3), ("eggs", emptyResp), ("flour", priceResp 2)]).1 =
      ((calculate_total_cost
        [("milk", priceResp 3), ("eggs", emptyResp), ("flour", priceResp 2)]).2.map Prod.snd).sum :=
  total_eq_sum_itemCosts _ (by decide)

/-- Counterexample to claim C8 as stated: an entry of the quote sequence
whose quote has no product, while its ingredient name nevertheless
appears in the breakdown (via a later duplicate entry), refuting the
"included if and only if" reading over arbitrary quote sequences. -/
theorem breakdown_membership_not_iff_on_duplicates :
    ("sugar", emptyResp) ∈ dupEmptyFirstQuotes ∧
    quoteHasItem emptyResp = false ∧
    "sugar" ∈ (calculate_total_cost dupEmptyFirstQuotes).2.map Prod.fst := by decide

/-- Claim C8 (amended): for every quote sequence with pairwise-distinct
ingredient names, the breakdown consists exactly of the quotes having at
least one product whose first product has at least one item, each
contributing its first product's first item's regular price (0 when the
price field is absent), and the total is the sum of exactly those
prices; in particular a quote with `data = []` contributes to neither. -/
theorem itemCosts_characterization (qs : List (String × KrogerProductSearchResponse))
    (hdist : (qs.map Prod.fst).Pairwise (fun a b => a ≠ b)) :
    (calculate_total_cost qs).2 =
      (qs.filter (fun p => quoteHasItem p.2)).map (fun p => (p.1, firstItemPrice p.2)) ∧
    (calculate_total_cost qs).1 =
      ((qs.filter (fun p => quoteHasItem p.2)).map (fun p => firstItemPrice p.2)).sum := by
  unfold calculate_total_cost
  rw [foldl_costStep_characterization qs (0, []) (by simp) hdist]
  simp

/-- Witness for amended C8 at a concrete distinct-name quote sequence
containing an unpriced quote. -/
theorem itemCosts_characterization_witness :
    (calculate_total_cost [("rice", priceResp 4), ("salt", emptyResp)]).2 =
      ([("rice", priceResp 4), ("salt", emptyResp)].filter
        (fun p => quoteHasItem p.2)).map (fun p => (p.1, firstItemPrice p.2)) ∧
    (calculate_total_cost [("rice", priceResp 4), ("salt", emptyResp)]).1 =
      (([("rice", priceResp 4), ("salt", emptyResp)].filter
        (fun p => quoteHasItem p.2)).map (fun p => firstItemPrice p.2)).sum :=
  itemCosts_characterization _ (by decide)

/-- Claim C7: `get_missing_ingredients` returns exactly the entries of
`missedIngredients` whose lowercased name is not an element of the
lowercased available list, in the recipe's original order (a `filter`),
and in particular a missed ingredient named "Heavy Cream" is dropped
when "heavy cream" is available. -/
theorem get_missing_ingredients_spec :
    (∀ (r : Recipe) (avail : List String),
      get_missing_ingredients r avail =
        r.missedIngredients.filter
          (fun ing => decide (strLower ing.name ∉ avail.map strLower))) ∧
    get_missing_ingredients
      { id := 7, title := "Fettuccine Alfredo", usedIngredients := [], unusedIngredients := [],
        missedIngredients := [{ id := 8, name := "Heavy Cream", amount := 1, unitName := "cup" }] }
      ["heavy cream"] = [] := by
  constructor
  · intro r avail
    simp only [get_missing_ingredients]
    congr 1
    funext ing
    by_cases h : strLower ing.name ∈ avail.map strLower
    · simp [List.contains, List.elem_iff, h]
    · simp [List.contains, List.elem_iff, h]
  · decide

/-- Python's comma split never produces an empty list of pieces. -/
theorem splitOnCommaChars_ne_nil : ∀ l : List Char, splitOnCommaChars l ≠ [] := by
  intro l
  induction l with
  | nil => simp [splitOnCommaChars]
  | cons c cs ih =>
    simp only [splitOnCommaChars]
    by_cases hc : c = ','
    · simp [hc]
    · simp only [hc, if_false]
      cases h : splitOnCommaChars cs with
      | nil => simp
      | cons p m => simp

/-- Counterexample to claim C9 as stated: an empty-but-successful
response (content `""`) is not detected as a failure; the extractor
returns the one-element list containing the empty name instead of
failing. -/
theorem extract_ingredients_empty_content_succeeds :
    extract_ingredients (Except.ok (some "")) = Except.ok [""] := rfl

/-- Claim C9 (amended): `extract_ingredients` fails exactly when the
underlying call yields no content (`None`), and on any successful
content returns a non-empty sequence consisting of the comma-separated
pieces in order, each trimmed of surrounding whitespace. -/
theorem extract_ingredients_behaviour :
    extract_ingredients (Except.ok none) = Except.error Failure.emptyResponse ∧
    (∀ c : String,
      extract_ingredients (Except.ok (some c)) =
        Except.ok ((splitOnCommaChars c.data).map (fun piece => pyStrip (String.mk piece))) ∧
      (splitOnCommaChars c.data).map (fun piece => pyStrip (String.mk piece)) ≠ []) := by
  refine ⟨rfl, fun c => ⟨rfl, ?_⟩⟩
  intro h
  exact splitOnCommaChars_ne_nil c.data (List.map_eq_nil_iff.mp h)

/-- Claim C10: with Python division semantics the guarded division by
`total_ingredients` never fails, so scoring is total exactly on
non-empty ingredient lists (where it agrees with the `ℚ`-valued
embedding), and the empty ingredient list hits the unguarded division by
`len(main_ingredients)` and fails. -/
theorem score_recipe_py_total (r : Recipe) (I : List String) :
    (I ≠ [] → score_recipe_py r I = some (score_recipe r I)) ∧
    score_recipe_py r [] = none := by
  constructor
  · intro hI
    have hlen : ¬ ((I.length : ℚ) = 0) := by
      simp only [Nat.cast_eq_zero]
      intro h
      exact hI (List.length_eq_zero.mp h)
    simp only [score_recipe_py, score_recipe, pyDiv, List.length_map]
    rcases Nat.eq_zero_or_pos (r.usedIngredients.length + r.missedIngredients.length) with h | h
    · have h' : ¬ (r.usedIngredients.length + r.missedIngredients.length > 0) := by omega
      simp only [if_neg h', if_neg hlen]
    · have hcast : ¬ (((r.usedIngredients.length + r.missedIngredients.length : Nat) : ℚ) = 0) := by
        simp only [Nat.cast_eq_zero]
        omega
      simp only [if_pos h, if_neg hcast, if_neg hlen]
  · simp only [score_recipe_py, pyDiv, List.length_map, List.length_nil, Nat.cast_zero]
    rcases Nat.eq_zero_or_pos (r.usedIngredients.length + r.missedIngredients.length) with h | h
    · have h' : ¬ (r.usedIngredients.length + r.missedIngredients.length > 0) := by omega
      simp only [if_neg h', if_true]
    · have hcast : ¬ (((r.usedIngredients.length + r.missedIngredients.length : Nat) : ℚ) = 0) := by
        simp only [Nat.cast_eq_zero]
        omega
      simp only [if_pos h, if_neg hcast, if_true]

/-- Witness for C10 at a concrete recipe and non-empty ingredient list. -/
theorem score_recipe_py_total_witness :
    score_recipe_py chickenRecipe ["chicken"] = some (score_recipe chickenRecipe ["chicken"]) :=
  (score_recipe_py_total chickenRecipe ["chicken"]).1 (List.cons_ne_nil _ _)

/-- Claim C5 fails on the code: two successive `get_prices` calls with
the same ingredient list perform two authentications, not at most one,
because `get_prices` calls `authenticate_kroger()` unconditionally (the
spec itself flags this token-caching defect). -/
theorem get_prices_authenticates_each_call :
    ((get_prices_calls [milkIngredient] ++ get_prices_calls [milkIngredient]).count
      ExternalCall.krogerAuth = 2) ∧
    ¬ ((get_prices_calls [milkIngredient] ++ get_prices_calls [milkIngredient]).count
      ExternalCall.krogerAuth ≤ 1) := by
  constructor
  · simp [get_prices_calls, List.count_cons, List.count_append]
  · simp [get_prices_calls, List.count_cons, List.count_append]

/-- The empty needle occurs in every haystack. -/
theorem occursIn_nil : ∀ l : List Char, occursIn [] l = true := by
  intro l
  cases l with
  | nil => rfl
  | cons c cs => simp [occursIn, startsWithL]

/-- Every list is a prefix of itself followed by anything. -/
theorem startsWithL_self_append : ∀ b c : List Char, startsWithL (b ++ c) b = true := by
  intro b
  induction b with
  | nil => intro c; cases c <;> rfl
  | cons x xs ih => intro c; simp [startsWithL, ih c]

/-- A middle segment occurs as a substring. -/
theorem occursIn_append_middle : ∀ a b c : List Char, occursIn b (a ++ b ++ c) = true := by
  intro a
  induction a with
  | nil =>
    intro b c
    cases b with
    | nil => simpa using occursIn_nil c
    | cons x xs =>
      have h := startsWithL_self_append (x :: xs) c
      simp only [List.cons_append] at h
      simp [occursIn, h]
  | cons y ys ih =>
    intro b c
    simp only [List.cons_append, occursIn]
    exact Bool.or_eq_true_iff.mpr (Or.inr (ih b c))

/-- Claim C6: when the formatter call has produced a dict carrying the
recipe's title and the persona summary call fails (by raising or by
returning `None` content), `summarize` returns the templated fallback
`ok` (it does not raise), and that fallback contains the recipe title as
a substring. -/
theorem summarize_fallback_contains_title
    (formatRecipe : Recipe → Except Failure FormattedRecipe)
    (generate : FormattedRecipe → List Ingredient → ℚ → List (String × ℚ) →
      Except Failure (Option String))
    (recipe : Recipe) (missing_ingredients : List Ingredient)
    (total_cost : ℚ) (ingredient_costs : List (String × ℚ)) (fr : FormattedRecipe)
    (hfmt : formatRecipe recipe = Except.ok fr)
    (htitle : fr.title = some recipe.title)
    (hfail : (∃ e, generate fr missing_ingredients total_cost ingredient_costs = Except.error e) ∨
      generate fr missing_ingredients total_cost ingredient_costs = Except.ok none) :
    summarize formatRecipe generate recipe missing_ingredients total_cost ingredient_costs =
      Except.ok ("**" ++ recipe.title ++ " Recipe Summary**\n\n") ∧
    strContainsSub ("**" ++ recipe.title ++ " Recipe Summary**\n\n") recipe.title = true := by
  constructor
  · rcases hfail with ⟨e, he⟩ | hnone
    · simp [summarize, hfmt, he, create_basic_summary, htitle]
    · simp [summarize, hfmt, hnone, create_basic_summary, htitle]
  · show occursIn recipe.title.data ("**" ++ recipe.title ++ " Recipe Summary**\n\n").data = true
    rw [String.data_append, String.data_append]
    exact occursIn_append_middle _ _ _

/-- Witness for C6: a formatter that returned the recipe's title and a
summary call that raises; the fallback is produced and titled. -/
theorem summarize_fallback_contains_title_witness :
    summarize (fun _ => Except.ok { title := some "Test Pasta" })
        (fun _ _ _ _ => Except.error (Failure.network "timeout"))
        pastaRecipe [] 0 [] =
      Except.ok ("**" ++ pastaRecipe.title ++ " Recipe Summary**\n\n") ∧
    strContainsSub ("**" ++ pastaRecipe.title ++ " Recipe Summary**\n\n") pastaRecipe.title = true :=
  summarize_fallback_contains_title _ _ pastaRecipe [] 0 [] { title := some "Test Pasta" }
    rfl rfl (Or.inl ⟨Failure.network "timeout", rfl⟩)

/-- Claim C4: on the ingredient path, a failure raised by any stage
aborts the turn — `process_message` yields that very failure and no
`ChatbotResponse` — and in particular an empty candidate batch makes
`find_recipe` fail with the no-recipes-found failure, which propagates
with no partial response. -/
theorem process_message_propagates_failures (env : Env) (st : ConversationState)
    (user_input : String) (i : String)
    (hintent : detect_intention (env.intent_call user_input) = Except.ok i)
    (hpath : i = "ingredients" ∨ i = "recipe_search") :
    (∀ e, extract_ingredients (env.extractor_call user_input) = Except.error e →
      (process_message env st user_input).2 = Except.error e) ∧
    (∀ ings, extract_ingredients (env.extractor_call user_input) = Except.ok ings →
      ((∀ e, find_recipe (env.recipe_source ings) ings = Except.error e →
          (process_message env st user_input).2 = Except.error e) ∧
        (env.recipe_source ings = Except.ok [] →
          find_recipe (env.recipe_source ings) ings = Except.error Failure.noRecipesFound ∧
          (process_message env st user_input).2 = Except.error Failure.noRecipesFound) ∧
        (∀ recipe, find_recipe (env.recipe_source ings) ings = Except.ok recipe →
          ((∀ e, get_prices_run env (get_missing_ingredients recipe ings) = Except.error e →
              (process_message env st user_input).2 = Except.error e) ∧
            (∀ price_data,
              get_prices_run env (get_missing_ingredients recipe ings) = Except.ok price_data →
              ∀ e, summarize env.format_recipe env.summary_generate recipe
                  (get_missing_ingredients recipe ings)
                  (calculate_total_cost price_data).1 (calculate_total_cost price_data).2
                = Except.error e →
              (process_message env st user_input).2 = Except.error e))))) := by
  have hif : (i = "ingredients" ∨ i = "recipe_search") = True := eq_true hpath
  refine ⟨?_, ?_⟩
  · intro e he
    simp [process_message, hintent, hif, he]
  · intro ings hings
    refine ⟨?_, ?_, ?_⟩
    · intro e he
      simp [process_message, hintent, hif, hings, he]
    · intro hempty
      have hfind : find_recipe (env.recipe_source ings) ings
          = Except.error Failure.noRecipesFound := by
        simp [find_recipe, hempty]
      exact ⟨hfind, by simp [process_message, hintent, hif, hings, hfind]⟩
    · intro recipe hrecipe
      refine ⟨?_, ?_⟩
      · intro e he
        simp [process_message, hintent, hif, hings, hrecipe, he]
      · intro price_data hprices e he
        simp [process_message, hintent, hif, hings, hrecipe, hprices, he]

/-- Witness for C4: with intent "ingredients" and a raising extractor,
the turn yields exactly that failure and no response. -/
theorem process_message_propagates_failures_witness :
    (process_message envFailingExtract emptyState "i have milk").2 =
      Except.error (Failure.network "connection reset") :=
  (process_message_propagates_failures envFailingExtract emptyState "i have milk"
      "ingredients" rfl (Or.inl rfl)).1
    (Failure.network "connection reset") rfl

end SicaKitchen

